import Mathlib

/-!
Shallow embedding of `src/ts/AutoMapperValidator.ts` (AutoMapper configuration
validator) together with proofs about its validation behaviour.

Modelling conventions:
* A constructed instance (`new sourceType()` / `new destinationType()`) is
  represented by the ordered list of its own enumerable member names;
  `obj.hasOwnProperty(m)` becomes membership in that list, and a `for..in`
  walk becomes iteration over the list in order.
* `undefined` / `null` become `Option.none`.
* A thrown validation `Error` becomes the `ValidationOutcome.error` value;
  the `TypeError` raised by reading a field of `null` becomes
  `ValidationOutcome.crash` (respectively the outer `none` of
  `validatePropertyMapping`).
-/

/-- `IDestinationProperty` (the fields read by the validator). -/
structure IDestinationProperty where
  name : String
  destinationPropertyName : String
  ignore : Bool
  sourceMapping : Bool
deriving DecidableEq, Repr

/-- `ISourceProperty` (the fields read by the validator): `name`,
`destinationPropertyName`, an optional direct `destination` rule and an
optional list of nested `children` rules. -/
inductive ISourceProperty where
  | mk (name : String) (destinationPropertyName : String)
       (destination : Option IDestinationProperty)
       (children : Option (List ISourceProperty))

def ISourceProperty.name : ISourceProperty → String
  | .mk n _ _ _ => n

def ISourceProperty.destinationPropertyName : ISourceProperty → String
  | .mk _ d _ _ => d

def ISourceProperty.destination : ISourceProperty → Option IDestinationProperty
  | .mk _ _ d _ => d

def ISourceProperty.children : ISourceProperty → Option (List ISourceProperty)
  | .mk _ _ _ c => c

/-- A constructible type reference (`sourceTypeClass` / `destinationTypeClass`):
`members` is the ordered list of own enumerable member names of a
zero-argument instance. `className` models the display name returned by the
name-extraction collaborator `AutoMapperHelper.getClassName` (that helper is
not part of the validator source; per the spec it only produces display text
for error messages). -/
structure TypeClass where
  className : String
  members : List String
deriving DecidableEq, Repr

/-- `IMapping` (the fields read by the validator). -/
structure IMapping where
  sourceKey : String
  destinationKey : String
  sourceTypeClass : Option TypeClass
  destinationTypeClass : Option TypeClass
  properties : List ISourceProperty

/-- One entry of the mapping registry: the `for..in` loop in
`assertConfigurationIsValid` sees every enumerable key (`own = false` models
an inherited/prototype entry, which the `hasOwnProperty` guard skips). -/
structure RegistryEntry where
  key : String
  own : Bool
  mapping : IMapping

mutual

/-- `AutoMapperValidator.getDestinationProperty`: return `rule.destination`
when present, otherwise search the optional `children` depth-first, else
absent (`null`). -/
def getDestinationProperty (destinationPropertyName : String)
    (existingSource : ISourceProperty) : Option IDestinationProperty :=
  match existingSource with
  | .mk _ _ (some d) _ => some d
  | .mk _ _ none (some children) => searchChildren destinationPropertyName children
  | .mk _ _ none none => none

/-- The `for (const child of existingSource.children)` loop inside
`getDestinationProperty`: first non-null recursive result wins. -/
def searchChildren (destinationPropertyName : String)
    (children : List ISourceProperty) : Option IDestinationProperty :=
  match children with
  | [] => none
  | child :: rest =>
    match getDestinationProperty destinationPropertyName child with
    | some destination => some destination
    | none => searchChildren destinationPropertyName rest

end

/-- `AutoMapperValidator.validateSourcePropertyMapping` (the
`sourceMapping = true` branch of the per-property check). -/
def validateSourcePropertyMapping (ropertyMapping : ISourceProperty)
    (destinationProperty : IDestinationProperty) (member : String)
    (srcObj dstObj : List String) : Option String :=
  if !(srcObj.contains member) then
    some s!"Source member '{member}' is configured, but does not exist on source type"
  else if destinationProperty.ignore then
    if dstObj.contains member then
      some s!"Source member '{member}' is ignored, but does exist on destination type"
    else
      none
  else if !(dstObj.contains member) then
    some s!"Source member '{member}' is configured to be mapped, but does not exist on destination type"
  else
    none

/-- `AutoMapperValidator.validateDestinationPropertyMapping` (the
`sourceMapping` falsy branch of the per-property check). -/
def validateDestinationPropertyMapping (propertyMapping : ISourceProperty)
    (destinationProperty : IDestinationProperty) (member : String)
    (srcObj dstObj : List String) : Option String :=
  if !(dstObj.contains destinationProperty.name) then
    some s!"Destination member '{destinationProperty.destinationPropertyName}' is configured, but does not exist on destination type"
  else if destinationProperty.ignore then
    if srcObj.contains member then
      some s!"Destination member '{member}' is ignored, but does exist on source type"
    else
      none
  else if !(srcObj.contains member) then
    some s!"Destination member '{member}' is configured to be mapped, but does not exist on source type"
  else
    none

/-- `AutoMapperValidator.validatePropertyMapping`.  The TypeScript reads
`destinationProperty.sourceMapping` without checking `getDestinationProperty`
for `null`; the outer `Option` records that: `none` is the `TypeError`
raised when the resolution result is `null`, `some r` is a normal return
with per-property result `r`. -/
def validatePropertyMapping (propertyMapping : ISourceProperty) (member : String)
    (srcObj dstObj : List String) : Option (Option String) :=
  match getDestinationProperty propertyMapping.destinationPropertyName propertyMapping with
  | none => none
  | some destinationProperty =>
    some (if destinationProperty.sourceMapping then
            validateSourcePropertyMapping propertyMapping destinationProperty member srcObj dstObj
          else
            validateDestinationPropertyMapping propertyMapping destinationProperty member srcObj dstObj)

/-- `AutoMapperValidator.validateProperty` (pass (b): an implicitly matched
source member must exist on the destination instance). -/
def validateProperty (srcMember : String) (dstObj : List String) : Option String :=
  if !(dstObj.contains srcMember) then
    some s!"Source member '{srcMember}' is configured to be mapped, but does not exist on destination type"
  else
    none

/-- Result of one validation pass: the updated `validatedMembers` accumulator,
a thrown validation error (the raw inner message, not yet wrapped), or the
`TypeError` crash of `validatePropertyMapping` on a `null` resolution. -/
inductive PassResult where
  | ok (validated : List String)
  | err (msg : String)
  | crash
deriving DecidableEq, Repr

/-- The `// walk member mappings` loop of `assertMappingConfiguration`:
for each configured property, run the per-property check (throwing on a
returned message) and push `property.name` onto `validatedMembers`. -/
def walkProperties (srcObj dstObj : List String) :
    List ISourceProperty → List String → PassResult
  | [], validatedMembers => .ok validatedMembers
  | property :: rest, validatedMembers =>
    match validatePropertyMapping property property.name srcObj dstObj with
    | none => .crash
    | some (some errorMessage) => .err errorMessage
    | some none => walkProperties srcObj dstObj rest (validatedMembers ++ [property.name])

/-- The `// walk source members` loop of `assertMappingConfiguration`:
every own member of the source instance not yet validated must exist on the
destination instance; it is then pushed onto `validatedMembers`. -/
def walkSourceMembers (dstObj : List String) :
    List String → List String → PassResult
  | [], validatedMembers => .ok validatedMembers
  | srcMember :: rest, validatedMembers =>
    if validatedMembers.contains srcMember then
      walkSourceMembers dstObj rest validatedMembers
    else
      match validateProperty srcMember dstObj with
      | some errorMessage => .err errorMessage
      | none => walkSourceMembers dstObj rest (validatedMembers ++ [srcMember])

/-- The `// walk destination members` loop of `assertMappingConfiguration`:
every own member of the destination instance not yet validated raises an
unconditional error. -/
def walkDestinationMembers : List String → List String → Option String
  | [], _ => none
  | dstMember :: rest, validatedMembers =>
    if validatedMembers.contains dstMember then
      walkDestinationMembers rest validatedMembers
    else
      some s!"Destination member '{dstMember}' does not exist on source type"

/-- The error wrapping performed by the local `tryHandle` closure. -/
def wrapError (mappingKey sourceClassName destinationClassName errorMessage : String) : String :=
  s!"Mapping '{mappingKey}' is invalid: {errorMessage} (source: '{sourceClassName}', destination: '{destinationClassName}')."

/-- Overall outcome of validating one mapping (or the whole registry):
normal return, a thrown validation `Error`, or a `TypeError` crash. -/
inductive ValidationOutcome where
  | ok
  | error (msg : String)
  | crash
deriving DecidableEq, Repr

/-- The composite key `"<sourceKey>=><destinationKey>"`. -/
def mappingKeyOf (mapping : IMapping) : String :=
  s!"{mapping.sourceKey}=>{mapping.destinationKey}"

/-- `AutoMapperValidator.assertMappingConfiguration`: strict-mode guard on
absent type references, then the three reconciliation passes over a fresh
source instance and destination instance. -/
def assertMappingConfiguration (mapping : IMapping) (strictMode : Bool) : ValidationOutcome :=
  let mappingKey := mappingKeyOf mapping
  match mapping.sourceTypeClass, mapping.destinationTypeClass with
  | some sourceType, some destinationType =>
    let sourceClassName := sourceType.className
    let destinationClassName := destinationType.className
    let srcObj := sourceType.members
    let dstObj := destinationType.members
    match walkProperties srcObj dstObj mapping.properties [] with
    | .crash => .crash
    | .err errorMessage =>
      .error (wrapError mappingKey sourceClassName destinationClassName errorMessage)
    | .ok validated1 =>
      match walkSourceMembers dstObj srcObj validated1 with
      | .crash => .crash
      | .err errorMessage =>
        .error (wrapError mappingKey sourceClassName destinationClassName errorMessage)
      | .ok validated2 =>
        match walkDestinationMembers dstObj validated2 with
        | some errorMessage =>
          .error (wrapError mappingKey sourceClassName destinationClassName errorMessage)
        | none => .ok
  | _, _ =>
    if strictMode = false then
      .ok
    else
      .error s!"Mapping '{mappingKey}' cannot be validated, since mapping.sourceType or mapping.destinationType are unspecified."

/-- `AutoMapperValidator.assertConfigurationIsValid`: walk the registry in
order, skip entries that fail the `hasOwnProperty` guard, and let the first
thrown failure propagate. -/
def assertConfigurationIsValid (mappings : List RegistryEntry) (strictMode : Bool) : ValidationOutcome :=
  match mappings with
  | [] => .ok
  | entry :: rest =>
    if !entry.own then
      assertConfigurationIsValid rest strictMode
    else
      match assertMappingConfiguration entry.mapping strictMode with
      | .ok => assertConfigurationIsValid rest strictMode
      | outcome => outcome

/-- The symmetric presence check as WORDED BY THE SPEC (§4.4 table): the two
mirror-image sequences selected by `destinationProperty.sourceMapping`,
phrased from the spec text rather than translated from the code, to be
compared against `validatePropertyMapping`. -/
def specSymmetricPresenceCheck (destinationProperty : IDestinationProperty)
    (member : String) (srcObj dstObj : List String) : Option String :=
  if destinationProperty.sourceMapping then
    if member ∉ srcObj then
      some s!"Source member '{member}' is configured, but does not exist on source type"
    else if destinationProperty.ignore then
      if member ∈ dstObj then
        some s!"Source member '{member}' is ignored, but does exist on destination type"
      else none
    else if member ∉ dstObj then
      some s!"Source member '{member}' is configured to be mapped, but does not exist on destination type"
    else none
  else
    if destinationProperty.name ∉ dstObj then
      some s!"Destination member '{destinationProperty.destinationPropertyName}' is configured, but does not exist on destination type"
    else if destinationProperty.ignore then
      if member ∈ srcObj then
        some s!"Destination member '{member}' is ignored, but does exist on source type"
      else none
    else if member ∉ srcObj then
      some s!"Destination member '{member}' is configured to be mapped, but does not exist on source type"
    else none

mutual

/-- Depth of a rule tree (1 per nesting level of `children`). -/
def depthRule : ISourceProperty → Nat
  | .mk _ _ _ none => 1
  | .mk _ _ _ (some children) => 1 + depthRules children

/-- Maximal depth over a list of sibling rules. -/
def depthRules : List ISourceProperty → Nat
  | [] => 0
  | child :: rest => max (depthRule child) (depthRules rest)

end

mutual

/-- Step-counting version of `getDestinationProperty`: one unit of fuel is
consumed per descent into a `children` list, and the outer `none` means the
fuel ran out before the recursion returned. -/
def fuelGetDestinationProperty : Nat → String → ISourceProperty →
    Option (Option IDestinationProperty)
  | 0, _, _ => none
  | _ + 1, _, .mk _ _ (some d) _ => some (some d)
  | fuel + 1, n, .mk _ _ none (some children) => fuelSearchChildren fuel n children
  | _ + 1, _, .mk _ _ none none => some none

/-- Step-counting version of `searchChildren`. -/
def fuelSearchChildren : Nat → String → List ISourceProperty →
    Option (Option IDestinationProperty)
  | _, _, [] => some none
  | fuel, n, child :: rest =>
    match fuelGetDestinationProperty fuel n child with
    | none => none
    | some (some destination) => some (some destination)
    | some none => fuelSearchChildren fuel n rest

end

mutual

/-- Auxiliary: the `destinationPropertyName` argument does not influence the
resolution result (rule case). -/
theorem gdp_name_irrel_aux (n1 n2 : String) (r : ISourceProperty) :
    getDestinationProperty n1 r = getDestinationProperty n2 r :=
  match r with
  | .mk _ _ (some _) _ => rfl
  | .mk _ _ none (some children) => by
    simp only [getDestinationProperty]
    exact search_name_irrel_aux n1 n2 children
  | .mk _ _ none none => rfl

/-- Auxiliary: the `destinationPropertyName` argument does not influence the
resolution result (child-list case). -/
theorem search_name_irrel_aux (n1 n2 : String) (children : List ISourceProperty) :
    searchChildren n1 children = searchChildren n2 children :=
  match children with
  | [] => rfl
  | child :: rest => by
    simp only [searchChildren]
    rw [gdp_name_irrel_aux n1 n2 child, search_name_irrel_aux n1 n2 rest]

end

mutual

/-- Auxiliary: with at least `depthRule r` fuel, the step-counting resolver
returns, and agrees with `getDestinationProperty` (rule case). -/
theorem gdp_fuel_aux (fuel : Nat) (n : String) (r : ISourceProperty)
    (h : depthRule r ≤ fuel) :
    fuelGetDestinationProperty fuel n r = some (getDestinationProperty n r) :=
  match fuel, r with
  | 0, r => by
    exfalso
    cases r with
    | mk nm dpn d c =>
      cases c <;> simp [depthRule] at h
  | fuel + 1, .mk _ _ (some _) _ => rfl
  | fuel + 1, .mk nm dpn none (some children) => by
    simp only [fuelGetDestinationProperty, getDestinationProperty]
    exact search_fuel_aux fuel n children (by
      have h' : 1 + depthRules children ≤ fuel + 1 := by simpa [depthRule] using h
      omega)
  | fuel + 1, .mk _ _ none none => rfl

/-- Auxiliary: with at least `depthRules children` fuel, the step-counting
child search returns, and agrees with `searchChildren` (child-list case). -/
theorem search_fuel_aux (fuel : Nat) (n : String) (children : List ISourceProperty)
    (h : depthRules children ≤ fuel) :
    fuelSearchChildren fuel n children = some (searchChildren n children) :=
  match children with
  | [] => rfl
  | child :: rest => by
    have hc : depthRule child ≤ fuel := le_trans (le_max_left _ _) (by simpa [depthRules] using h)
    have hr : depthRules rest ≤ fuel := le_trans (le_max_right _ _) (by simpa [depthRules] using h)
    simp only [fuelSearchChildren, searchChildren]
    rw [gdp_fuel_aux fuel n child hc]
    cases getDestinationProperty n child with
    | some d => rfl
    | none => simpa using search_fuel_aux fuel n rest hr

end

/-- `searchChildren` is exactly "first non-absent recursive result". -/
theorem searchChildren_eq_findSome (n : String) (children : List ISourceProperty) :
    searchChildren n children = children.findSome? (getDestinationProperty n) := by
  induction children with
  | nil => rfl
  | cons child rest ih =>
    simp only [searchChildren, List.findSome?]
    cases getDestinationProperty n child <;> simp [ih]

/-- Pass (c) returns no error exactly when every destination member was
already validated. -/
theorem walkDestinationMembers_eq_none_iff (dstObj validated : List String) :
    walkDestinationMembers dstObj validated = none ↔
      ∀ m ∈ dstObj, validated.contains m = true := by
  induction dstObj with
  | nil => simp [walkDestinationMembers]
  | cons m rest ih =>
    by_cases hm : validated.contains m = true
    · simp only [walkDestinationMembers]
      rw [if_pos hm, ih]
      constructor
      · intro hall x hx
        rcases List.mem_cons.mp hx with hx | hx
        · exact hx ▸ hm
        · exact hall x hx
      · intro hall x hx
        exact hall x (List.mem_cons_of_mem m hx)
    · simp only [walkDestinationMembers]
      rw [if_neg hm]
      constructor
      · intro hcontra
        exact absurd hcontra (by simp)
      · intro hall
        exact absurd (hall m (List.mem_cons_self m rest)) hm

/-- If some destination member is unvalidated, pass (c) raises the
unconditional error for such a member. -/
theorem walkDestinationMembers_some (dstObj validated : List String)
    (h : ∃ m ∈ dstObj, validated.contains m = false) :
    ∃ name, name ∈ dstObj ∧ validated.contains name = false ∧
      walkDestinationMembers dstObj validated =
        some s!"Destination member '{name}' does not exist on source type" := by
  induction dstObj with
  | nil => simp at h
  | cons m rest ih =>
    by_cases hm : validated.contains m = true
    · obtain ⟨x, hx, hxc⟩ := h
      rcases List.mem_cons.mp hx with hx | hx
      · subst hx
        simp at hm hxc
        exact absurd hm hxc
      · obtain ⟨name, h1, h2, h3⟩ := ih ⟨x, hx, hxc⟩
        refine ⟨name, List.mem_cons_of_mem m h1, h2, ?_⟩
        simp only [walkDestinationMembers]
        rw [if_pos hm]
        exact h3
    · refine ⟨m, List.mem_cons_self m rest, by simpa using hm, ?_⟩
      simp only [walkDestinationMembers]
      rw [if_neg hm]

/-- Pass (b) only grows the validated set. -/
theorem walkSourceMembers_ok_mono (dstObj : List String) :
    ∀ (srcObj validated v2 : List String),
      walkSourceMembers dstObj srcObj validated = .ok v2 →
      ∀ x, validated.contains x = true → v2.contains x = true := by
  intro srcObj
  induction srcObj with
  | nil =>
    intro validated v2 h x hx
    simp only [walkSourceMembers] at h
    cases h
    exact hx
  | cons m rest ih =>
    intro validated v2 h x hx
    simp only [walkSourceMembers] at h
    by_cases hm : validated.contains m = true
    · rw [if_pos hm] at h
      exact ih validated v2 h x hx
    · rw [if_neg hm] at h
      cases hv : validateProperty m dstObj with
      | some msg => rw [hv] at h; cases h
      | none =>
        rw [hv] at h
        refine ih _ v2 h x ?_
        simp at hx ⊢
        exact Or.inl hx

/-- Pass (b) completes without failure when every source member is either
already validated or present on the destination instance; afterwards the
validated set covers the old set and every source member. -/
theorem walkSourceMembers_ok_of_covered (dstObj : List String) :
    ∀ (srcObj validated : List String),
      (∀ x ∈ srcObj, validated.contains x = true ∨ dstObj.contains x = true) →
      ∃ v2, walkSourceMembers dstObj srcObj validated = .ok v2 ∧
        ∀ x, (validated.contains x = true ∨ x ∈ srcObj) → v2.contains x = true := by
  intro srcObj
  induction srcObj with
  | nil =>
    intro validated _
    exact ⟨validated, rfl, by simp⟩
  | cons m rest ih =>
    intro validated hcov
    by_cases hm : validated.contains m = true
    · obtain ⟨v2, h1, h2⟩ := ih validated (fun x hx => hcov x (by simp [hx]))
      refine ⟨v2, ?_, ?_⟩
      · simp only [walkSourceMembers]
        rw [if_pos hm]
        exact h1
      · intro x hx
        rcases hx with hx | hx
        · exact h2 x (Or.inl hx)
        · rcases (by simpa using hx : x = m ∨ x ∈ rest) with hx | hx
          · exact h2 x (Or.inl (hx ▸ hm))
          · exact h2 x (Or.inr hx)
    · have hdst : dstObj.contains m = true := by
        rcases hcov m (by simp) with h | h
        · exact absurd h hm
        · exact h
      have hval : validateProperty m dstObj = none := by
        unfold validateProperty
        rw [hdst]
        simp
      obtain ⟨v2, h1, h2⟩ := ih (validated ++ [m]) (fun x hx => by
        rcases hcov x (by simp [hx]) with h | h
        · exact Or.inl (by simp at h ⊢; exact Or.inl h)
        · exact Or.inr h)
      refine ⟨v2, ?_, ?_⟩
      · simp only [walkSourceMembers]
        rw [if_neg hm, hval]
        exact h1
      · intro x hx
        rcases hx with hx | hx
        · exact h2 x (Or.inl (by simp at hx ⊢; exact Or.inl hx))
        · rcases (by simpa using hx : x = m ∨ x ∈ rest) with hx | hx
          · exact h2 x (Or.inl (by simp [hx]))
          · exact h2 x (Or.inr hx)

/-- Pass (a), when it completes without failure, has pushed every configured
property name onto the validated accumulator (and kept what was there). -/
theorem walkProperties_ok_names (srcObj dstObj : List String) :
    ∀ (props : List ISourceProperty) (acc v1 : List String),
      walkProperties srcObj dstObj props acc = .ok v1 →
      (∀ x, acc.contains x = true → v1.contains x = true) ∧
      (∀ p ∈ props, v1.contains p.name = true) := by
  intro props
  induction props with
  | nil =>
    intro acc v1 h
    simp only [walkProperties] at h
    cases h
    exact ⟨fun x hx => hx, by simp⟩
  | cons p rest ih =>
    intro acc v1 h
    simp only [walkProperties] at h
    cases hv : validatePropertyMapping p p.name srcObj dstObj with
    | none => rw [hv] at h; cases h
    | some r =>
      cases r with
      | some msg => rw [hv] at h; cases h
      | none =>
        rw [hv] at h
        obtain ⟨hmono, hnames⟩ := ih (acc ++ [p.name]) v1 h
        refine ⟨fun x hx => hmono x (by simp at hx ⊢; exact Or.inl hx), ?_⟩
        intro q hq
        rcases List.mem_cons.mp hq with hq | hq
        · rw [hq]
          exact hmono p.name (by simp)
        · exact hnames q hq

/-- Concrete rules and mappings used by witnesses and counterexamples. -/
def dRuleAB : IDestinationProperty := ⟨"b", "b", false, true⟩

def sRuleAB : ISourceProperty := .mk "a" "b" (some dRuleAB) none

/-- Mapping where an explicit rule maps source member `a` onto destination
member `b`: `a` reconciles, but the targeted destination member `b` never
enters the validated set. -/
def mappingAtoB : IMapping :=
  { sourceKey := "A", destinationKey := "B",
    sourceTypeClass := some ⟨"SourceA", ["a"]⟩,
    destinationTypeClass := some ⟨"DestB", ["a", "b"]⟩,
    properties := [sRuleAB] }

/-- Ignore rule on `secret` originating from the source side. -/
def dRuleSecret : IDestinationProperty := ⟨"secret", "secret", true, true⟩

def sRuleSecret : ISourceProperty := .mk "secret" "secret" (some dRuleSecret) none

/-- Ignore rule for `secret`, but `secret` does not exist on the source
instance (and not on the destination instance either). -/
def mappingSecretMissing : IMapping :=
  { sourceKey := "A", destinationKey := "B",
    sourceTypeClass := some ⟨"SourceA", ["id"]⟩,
    destinationTypeClass := some ⟨"DestB", ["id"]⟩,
    properties := [sRuleSecret] }

/-- Spec example 3: ignore rule for `secret`, present on both instances. -/
def mappingSecretBoth : IMapping :=
  { sourceKey := "A", destinationKey := "B",
    sourceTypeClass := some ⟨"SourceA", ["id", "secret"]⟩,
    destinationTypeClass := some ⟨"DestB", ["id", "secret"]⟩,
    properties := [sRuleSecret] }

/-- A rule with neither a `destination` nor `children`. -/
def bareRule : ISourceProperty := .mk "x" "x" none none

/-- Mapping containing the bare rule. -/
def mappingBareRule : IMapping :=
  { sourceKey := "A", destinationKey := "B",
    sourceTypeClass := some ⟨"SourceA", ["x"]⟩,
    destinationTypeClass := some ⟨"DestB", ["x"]⟩,
    properties := [bareRule] }

/-- A mapping that validates cleanly (same single member on both sides). -/
def mappingClean : IMapping :=
  { sourceKey := "K", destinationKey := "L",
    sourceTypeClass := some ⟨"S", ["id"]⟩,
    destinationTypeClass := some ⟨"D", ["id"]⟩,
    properties := [] }

/-- Mapping without a source type reference. -/
def mappingNoSourceType : IMapping :=
  { sourceKey := "A", destinationKey := "B",
    sourceTypeClass := none,
    destinationTypeClass := some ⟨"DestB", ["id"]⟩,
    properties := [] }

/-- C1: for an explicitly configured rule whose resolved destination rule is
present, the per-property check follows the two mirror-image sequences of the
spec's §4.4 table, selected by `sourceMapping`: the source-originated
sequence checks the rule's name on the source instance, then the ignore /
mapped checks against the destination instance; the destination-originated
sequence checks `destinationProperty.name` on the destination instance first,
then the rule's name against the source instance, with the corresponding
messages; in all remaining cases no error is produced. -/
theorem validatePropertyMapping_follows_spec (propertyMapping : ISourceProperty)
    (destinationProperty : IDestinationProperty) (srcObj dstObj : List String)
    (h : getDestinationProperty propertyMapping.destinationPropertyName propertyMapping =
      some destinationProperty) :
    validatePropertyMapping propertyMapping propertyMapping.name srcObj dstObj =
      some (specSymmetricPresenceCheck destinationProperty propertyMapping.name srcObj dstObj) := by
  unfold validatePropertyMapping
  rw [h]
  by_cases h1 : propertyMapping.name ∈ srcObj <;>
    by_cases h2 : propertyMapping.name ∈ dstObj <;>
      by_cases h3 : destinationProperty.name ∈ dstObj <;>
        cases hsm : destinationProperty.sourceMapping <;>
          cases hig : destinationProperty.ignore <;>
            simp [validateSourcePropertyMapping, validateDestinationPropertyMapping,
              specSymmetricPresenceCheck, hsm, hig, h1, h2, h3]

/-- C1 witness: the theorem applied to the rule mapping `a` to `b` over
instances that both own only `a`. -/
theorem validatePropertyMapping_follows_spec_witness :
    validatePropertyMapping sRuleAB "a" ["a"] ["a"] =
      some (specSymmetricPresenceCheck dRuleAB "a" ["a"] ["a"]) :=
  validatePropertyMapping_follows_spec sRuleAB dRuleAB ["a"] ["a"] rfl

/-- C5: destination-rule resolution returns `rule.destination` immediately
when present; otherwise, when `rule.children` is present, it returns the
first non-absent depth-first result over the children in order; otherwise it
returns absent; and for a rule with two children where only the second holds
a destination, it returns that second child's destination. -/
theorem getDestinationProperty_resolution_spec :
    ∀ (n nm dpn : String) (d : IDestinationProperty)
      (cs : Option (List ISourceProperty)) (children : List ISourceProperty)
      (d2 : IDestinationProperty),
      getDestinationProperty n (.mk nm dpn (some d) cs) = some d ∧
      getDestinationProperty n (.mk nm dpn none (some children)) =
        children.findSome? (getDestinationProperty n) ∧
      getDestinationProperty n (.mk nm dpn none none) = none ∧
      getDestinationProperty n
        (.mk nm dpn none (some [.mk nm dpn none none, .mk nm dpn (some d2) none])) =
          some d2 := by
  intro n nm dpn d cs children d2
  refine ⟨rfl, ?_, rfl, rfl⟩
  simp only [getDestinationProperty]
  exact searchChildren_eq_findSome n children

/-- C9: resolution terminates on every finite rule tree: with fuel at least
the depth of the tree, the step-counting resolver returns (rather than
running out of fuel), and its result is `getDestinationProperty`'s. -/
theorem getDestinationProperty_terminates (fuel : Nat) (n : String)
    (r : ISourceProperty) (h : depthRule r ≤ fuel) :
    fuelGetDestinationProperty fuel n r = some (getDestinationProperty n r) :=
  gdp_fuel_aux fuel n r h

/-- C9 witness: the theorem applied to a two-level rule tree with fuel 2. -/
theorem getDestinationProperty_terminates_witness :
    fuelGetDestinationProperty 2 "b"
        (.mk "a" "b" none (some [bareRule, .mk "a" "b" (some dRuleAB) none])) =
      some (getDestinationProperty "b"
        (.mk "a" "b" none (some [bareRule, .mk "a" "b" (some dRuleAB) none]))) :=
  getDestinationProperty_terminates 2 "b"
    (.mk "a" "b" none (some [bareRule, .mk "a" "b" (some dRuleAB) none])) (by decide)

/-- C10: the `destinationPropertyName` argument never influences which rule
destination-rule resolution returns. -/
theorem getDestinationProperty_name_independent (n1 n2 : String) (r : ISourceProperty) :
    getDestinationProperty n1 r = getDestinationProperty n2 r :=
  gdp_name_irrel_aux n1 n2 r

/-- C3: a mapping whose `sourceTypeClass` or `destinationTypeClass` is absent
is silently skipped when `strictMode` is false, and fails with the
"cannot be validated ... unspecified" error when `strictMode` is true; no
member check is performed in either case (the outcome is fully determined
before any member walk). -/
theorem missingTypeReference_guard (mapping : IMapping) (strictMode : Bool)
    (h : mapping.sourceTypeClass = none ∨ mapping.destinationTypeClass = none) :
    assertMappingConfiguration mapping strictMode =
      if strictMode then
        .error s!"Mapping '{mappingKeyOf mapping}' cannot be validated, since mapping.sourceType or mapping.destinationType are unspecified."
      else
        .ok := by
  rcases h with h | h
  · unfold assertMappingConfiguration
    rw [h]
    cases strictMode <;> rfl
  · unfold assertMappingConfiguration
    rw [h]
    cases hs : mapping.sourceTypeClass <;> cases strictMode <;> rfl

/-- C3 witness: the theorem applied to a mapping without a source type
reference, in strict mode. -/
theorem missingTypeReference_guard_witness :
    assertMappingConfiguration mappingNoSourceType true =
      .error "Mapping 'A=>B' cannot be validated, since mapping.sourceType or mapping.destinationType are unspecified." :=
  (missingTypeReference_guard mappingNoSourceType true (Or.inl rfl)).trans rfl

/-- C7: the registry walk skips entries that fail the `hasOwnProperty` guard,
aborts with the failure of the first invalid own entry (later entries are
not examined), and returns normally when every own entry validates. -/
theorem assertConfigurationIsValid_walk (strictMode : Bool) :
    (∀ (entry : RegistryEntry) (rest : List RegistryEntry), entry.own = false →
      assertConfigurationIsValid (entry :: rest) strictMode =
        assertConfigurationIsValid rest strictMode) ∧
    (∀ (entry : RegistryEntry) (rest : List RegistryEntry), entry.own = true →
      assertMappingConfiguration entry.mapping strictMode ≠ .ok →
      assertConfigurationIsValid (entry :: rest) strictMode =
        assertMappingConfiguration entry.mapping strictMode) ∧
    (∀ mappings : List RegistryEntry,
      (∀ entry ∈ mappings, entry.own = true →
        assertMappingConfiguration entry.mapping strictMode = .ok) →
      assertConfigurationIsValid mappings strictMode = .ok) := by
  refine ⟨?_, ?_, ?_⟩
  · intro entry rest h
    simp only [assertConfigurationIsValid]
    rw [h]
    rfl
  · intro entry rest h hne
    simp only [assertConfigurationIsValid]
    rw [h]
    cases ho : assertMappingConfiguration entry.mapping strictMode with
    | ok => exact absurd ho hne
    | error msg => rfl
    | crash => rfl
  · intro mappings
    induction mappings with
    | nil => intro _; rfl
    | cons entry rest ih =>
      intro hall
      simp only [assertConfigurationIsValid]
      cases he : entry.own with
      | false => exact ih fun e hmem hown => hall e (List.mem_cons_of_mem entry hmem) hown
      | true =>
        rw [hall entry (List.mem_cons_self entry rest) he]
        exact ih fun e hmem hown => hall e (List.mem_cons_of_mem entry hmem) hown

/-- C7 witness: the theorem applied to a one-entry registry whose mapping
validates. -/
theorem assertConfigurationIsValid_walk_witness :
    assertConfigurationIsValid [⟨"K=>L", true, mappingClean⟩] false = .ok :=
  (assertConfigurationIsValid_walk false).2.2 [⟨"K=>L", true, mappingClean⟩]
    (by
      intro entry hmem _
      simp only [List.mem_singleton] at hmem
      subst hmem
      rfl)

/-- C4: with both type references present and passes (a) and (b) completed
without failure, validation fails with the "Destination member '<name>' does
not exist on source type" error for an unvalidated destination member when
one exists, and returns normally otherwise. -/
theorem unmappedDestinationMember_pass (mapping : IMapping) (st dt : TypeClass)
    (strictMode : Bool) (v1 v2 : List String)
    (hs : mapping.sourceTypeClass = some st) (hd : mapping.destinationTypeClass = some dt)
    (h1 : walkProperties st.members dt.members mapping.properties [] = .ok v1)
    (h2 : walkSourceMembers dt.members st.members v1 = .ok v2) :
    ((∀ m ∈ dt.members, v2.contains m = true) →
      assertMappingConfiguration mapping strictMode = .ok) ∧
    ((∃ m ∈ dt.members, v2.contains m = false) →
      ∃ name, name ∈ dt.members ∧ v2.contains name = false ∧
        assertMappingConfiguration mapping strictMode =
          .error (wrapError (mappingKeyOf mapping) st.className dt.className
            s!"Destination member '{name}' does not exist on source type")) := by
  have hred : assertMappingConfiguration mapping strictMode =
      match walkDestinationMembers dt.members v2 with
      | some errorMessage =>
        .error (wrapError (mappingKeyOf mapping) st.className dt.className errorMessage)
      | none => .ok := by
    unfold assertMappingConfiguration
    simp only [hs, hd, h1, h2]
  constructor
  · intro hall
    have hnone : walkDestinationMembers dt.members v2 = none :=
      (walkDestinationMembers_eq_none_iff dt.members v2).mpr hall
    rw [hred, hnone]
  · intro hex
    obtain ⟨name, hn1, hn2, hn3⟩ := walkDestinationMembers_some dt.members v2 hex
    exact ⟨name, hn1, hn2, by rw [hred, hn3]⟩

/-- C4 witness: the theorem applied to a mapping whose single member exists
on both sides, giving normal return. -/
theorem unmappedDestinationMember_pass_witness :
    assertMappingConfiguration mappingClean true = .ok :=
  (unmappedDestinationMember_pass mappingClean ⟨"S", ["id"]⟩ ⟨"D", ["id"]⟩ true
    [] ["id"] rfl rfl rfl rfl).1 (by decide)

/-- C2 counterexample: the explicit rule maps source member `a` onto
destination member `b` (and resolves to a destination rule named `b`), both
instances make the per-property check pass, yet validation fails in pass (c)
on exactly that targeted destination member `b` — so a member name
reconciled by an explicit rule CAN trigger the pass (c) failure when it is
the rule's destination-side target rather than the rule's own name. -/
theorem explicitTarget_reflagged_cex :
    getDestinationProperty "b" sRuleAB = some dRuleAB ∧
    dRuleAB.name = "b" ∧
    assertMappingConfiguration mappingAtoB true =
      .error "Mapping 'A=>B' is invalid: Destination member 'b' does not exist on source type (source: 'SourceA', destination: 'DestB')." :=
  ⟨rfl, rfl, rfl⟩

/-- C2 amended: within one mapping a name already in the validated set is
skipped by passes (b) and (c); pass (a) puts every configured rule's own
`name` into the validated set and pass (b) only grows it, so a rule's name is
never re-flagged — but only the rule's source-side `name` is protected, not
the destination-side member the rule targets. -/
theorem validated_names_skipped (srcObj dstObj : List String)
    (props : List ISourceProperty) (v1 : List String)
    (h1 : walkProperties srcObj dstObj props [] = .ok v1) :
    (∀ p ∈ props, v1.contains p.name = true) ∧
    (∀ v2, walkSourceMembers dstObj srcObj v1 = .ok v2 →
      ∀ x, v1.contains x = true → v2.contains x = true) ∧
    (∀ (m : String) (rest v : List String), v.contains m = true →
      walkSourceMembers dstObj (m :: rest) v = walkSourceMembers dstObj rest v ∧
      walkDestinationMembers (m :: rest) v = walkDestinationMembers rest v) := by
  refine ⟨(walkProperties_ok_names srcObj dstObj props [] v1 h1).2, ?_, ?_⟩
  · intro v2 h2 x hx
    exact walkSourceMembers_ok_mono dstObj srcObj v1 v2 h2 x hx
  · intro m rest v hv
    constructor
    · simp only [walkSourceMembers]
      rw [if_pos hv]
    · simp only [walkDestinationMembers]
      rw [if_pos hv]

/-- C2 witness: the skip behaviour of passes (b) and (c) on an already
validated name. -/
theorem validated_names_skipped_witness :
    walkSourceMembers ["a"] ["a"] ["a"] = walkSourceMembers ["a"] [] ["a"] ∧
    walkDestinationMembers ["a"] ["a"] = walkDestinationMembers [] ["a"] :=
  (validated_names_skipped ["a"] ["a"] [] [] rfl).2.2 "a" [] ["a"] (by decide)

/-- C6 counterexample: a mapping containing an ignore rule
(`ignore = true`, `sourceMapping = true`) for `secret`; the destination
instance does NOT own `secret`, yet validation of the mapping still fails —
because `secret` is also missing from the source instance — refuting the
claimed "fails iff the destination instance owns the name". -/
theorem ignoredMember_iff_cex :
    getDestinationProperty "secret" sRuleSecret = some dRuleSecret ∧
    dRuleSecret.ignore = true ∧
    dRuleSecret.sourceMapping = true ∧
    mappingSecretMissing.destinationTypeClass = some ⟨"DestB", ["id"]⟩ ∧
    (["id"] : List String).contains "secret" = false ∧
    assertMappingConfiguration mappingSecretMissing true =
      .error "Mapping 'A=>B' is invalid: Source member 'secret' is configured, but does not exist on source type (source: 'SourceA', destination: 'DestB')." :=
  ⟨rfl, rfl, rfl, rfl, by decide, rfl⟩

/-- C6 amended: for a mapping with both type references whose single property
rule resolves to an ignore rule with `sourceMapping = true`, where the source
instance owns the rule's name, every other source member exists on the
destination, and every destination member is the rule's name or a source
member, validation fails iff the rule's name is an own member of the
destination instance. -/
theorem ignoredMember_present_iff_fails (m : IMapping) (st dt : TypeClass)
    (r : ISourceProperty) (d : IDestinationProperty) (strictMode : Bool)
    (hs : m.sourceTypeClass = some st) (hd : m.destinationTypeClass = some dt)
    (hp : m.properties = [r])
    (hres : getDestinationProperty r.destinationPropertyName r = some d)
    (hig : d.ignore = true) (hsm : d.sourceMapping = true)
    (hown : st.members.contains r.name = true)
    (hsrc : ∀ x ∈ st.members, x ≠ r.name → dt.members.contains x = true)
    (hdst : ∀ x ∈ dt.members, x = r.name ∨ x ∈ st.members) :
    (∃ msg, assertMappingConfiguration m strictMode = .error msg) ↔
      dt.members.contains r.name = true := by
  have hvpm : validatePropertyMapping r r.name st.members dt.members =
      some (if dt.members.contains r.name then
        some s!"Source member '{r.name}' is ignored, but does exist on destination type"
      else none) := by
    unfold validatePropertyMapping
    simp only [hres]
    rw [hsm]
    unfold validateSourcePropertyMapping
    rw [hown, hig]
    simp
  by_cases hc : dt.members.contains r.name = true
  · have hwp : walkProperties st.members dt.members m.properties [] =
        .err s!"Source member '{r.name}' is ignored, but does exist on destination type" := by
      rw [hp]
      simp only [walkProperties]
      rw [hvpm, hc]
      rfl
    have herr : assertMappingConfiguration m strictMode =
        .error (wrapError (mappingKeyOf m) st.className dt.className
          s!"Source member '{r.name}' is ignored, but does exist on destination type") := by
      unfold assertMappingConfiguration
      simp only [hs, hd, hwp]
    exact ⟨fun _ => hc, fun _ => ⟨_, herr⟩⟩
  · have hc' : dt.members.contains r.name = false := by simpa using hc
    have hwp : walkProperties st.members dt.members m.properties [] = .ok [r.name] := by
      rw [hp]
      simp only [walkProperties]
      rw [hvpm, hc']
      rfl
    obtain ⟨v2, hv2, hv2p⟩ := walkSourceMembers_ok_of_covered dt.members st.members [r.name]
      (fun x hx => by
        by_cases hxr : x = r.name
        · exact Or.inl (by simp [hxr])
        · exact Or.inr (hsrc x hx hxr))
    have hwd : walkDestinationMembers dt.members v2 = none :=
      (walkDestinationMembers_eq_none_iff dt.members v2).mpr (fun x hx => by
        rcases hdst x hx with hxr | hxs
        · exact hv2p x (Or.inl (by simp [hxr]))
        · exact hv2p x (Or.inr hxs))
    have hok : assertMappingConfiguration m strictMode = .ok := by
      unfold assertMappingConfiguration
      simp only [hs, hd, hwp, hv2, hwd]
    constructor
    · rintro ⟨msg, hmsg⟩
      rw [hok] at hmsg
      exact ValidationOutcome.noConfusion hmsg
    · intro hcon
      exact absurd hcon hc

/-- C6 witness: the spec's example 3 — `secret` present on both instances
with the ignore rule — through the amended theorem: validation fails. -/
theorem ignoredMember_present_iff_fails_witness :
    ∃ msg, assertMappingConfiguration mappingSecretBoth true = .error msg :=
  (ignoredMember_present_iff_fails mappingSecretBoth ⟨"SourceA", ["id", "secret"]⟩
    ⟨"DestB", ["id", "secret"]⟩ sRuleSecret dRuleSecret true rfl rfl rfl rfl rfl rfl
    (by decide) (by decide) (by decide)).mpr (by decide)

/-- C8 counterexample: for a rule with neither a `destination` nor
`children` — which the data model permits — resolution returns absent, and
`validatePropertyMapping` dereferences that absent result (a `TypeError`,
the outer `none`), so the whole mapping validation crashes instead of
returning an error or no error. -/
theorem nullResolution_dereference_cex :
    getDestinationProperty "x" bareRule = none ∧
    validatePropertyMapping bareRule "x" ["x"] ["x"] = none ∧
    assertMappingConfiguration mappingBareRule true = .crash :=
  ⟨rfl, rfl, rfl⟩

/-- C8 amended: `validatePropertyMapping` reads `sourceMapping` off the
resolution result without a presence check, so it is total exactly on rules
whose resolution yields a present destination rule: it crashes (`none`) when
resolution is absent, and returns a per-property result (no error or a
descriptive message) whenever resolution is present. -/
theorem validatePropertyMapping_total_iff_resolution (propertyMapping : ISourceProperty)
    (member : String) (srcObj dstObj : List String) :
    (getDestinationProperty propertyMapping.destinationPropertyName propertyMapping = none →
      validatePropertyMapping propertyMapping member srcObj dstObj = none) ∧
    (∀ d, getDestinationProperty propertyMapping.destinationPropertyName propertyMapping = some d →
      ∃ result, validatePropertyMapping propertyMapping member srcObj dstObj = some result) := by
  constructor
  · intro h
    unfold validatePropertyMapping
    rw [h]
  · intro d h
    refine ⟨if d.sourceMapping then
        validateSourcePropertyMapping propertyMapping d member srcObj dstObj
      else
        validateDestinationPropertyMapping propertyMapping d member srcObj dstObj, ?_⟩
    unfold validatePropertyMapping
    rw [h]

/-- C8 witness: the crash case of the amended theorem at the bare rule. -/
theorem validatePropertyMapping_total_iff_resolution_witness :
    validatePropertyMapping bareRule "x" [] [] = none :=
  (validatePropertyMapping_total_iff_resolution bareRule "x" [] []).1 rfl
